import Mathlib

/-!
Shallow embedding of the LinkedIn-Profile-Optimization-Agent repository
(Python sources under src/), together with proofs settling the frozen
claims about it.  Python strings are modelled as Lean `String` / `List Char`
(the profiles are ASCII text, where `Char.toLower` agrees with Python's
`str.lower`), Python ints as `Int` or — where every value is provably
non-negative — as `Nat`, and Python float arithmetic that is immediately
truncated with `int(...)` as exact rational arithmetic followed by floor
(the operands in this code are small integers, where the double-precision
computation is exact or rounds to the same integer).
-/

namespace LinkedInOpt

/-! Generic string helpers mirroring the Python `str` primitives the
sources use: `lower`, `find`, `in` (substring test), slicing, `strip`,
`replace`, `startswith`/`endswith` and whitespace `split`. -/

/-- Python `str.lower` applied characterwise (ASCII). -/
def lowerStr (s : String) : String := ⟨s.data.map Char.toLower⟩

/-- Boolean test that `p` is a prefix of the second list. -/
def isPre : List Char → List Char → Bool
  | [], _ => true
  | _ :: _, [] => false
  | p :: ps, c :: cs => p == c && isPre ps cs

/-- Boolean test that `p` is a suffix of the list. -/
def isSuf (p l : List Char) : Bool := isPre p.reverse l.reverse

/-- Python `hay.find(pat)`: index of the first occurrence of `pat` in
`hay`, `none` playing the role of Python's `-1`. -/
def listFind (pat : List Char) : List Char → Option Nat
  | [] => if isPre pat [] then some 0 else none
  | c :: t => if isPre pat (c :: t) then some 0 else (listFind pat t).map (fun n => n + 1)

/-- Python `hay.find(pat, start)`. -/
def findFrom (l pat : List Char) (start : Nat) : Option Nat :=
  (listFind pat (l.drop start)).map (fun n => n + start)

/-- Python substring test `pat in hay`. -/
def containsSub (hay pat : List Char) : Bool := (listFind pat hay).isSome

/-- Substring test on `String`s. -/
def containsStr (hay pat : String) : Bool := containsSub hay.data pat.data

/-- Character class stripped by Python `str.strip()` (ASCII whitespace). -/
def isPySpace (c : Char) : Bool :=
  c == ' ' || c == '\t' || c == '\n' || c == '\r' || c == '\x0b' || c == '\x0c'

/-- Python `str.strip()`. -/
def stripBoth (l : List Char) : List Char :=
  ((l.dropWhile isPySpace).reverse.dropWhile isPySpace).reverse

/-- Fuelled scan for `replaceAll`; with fuel at least the length of the
list it scans left to right, replacing non-overlapping occurrences of a
non-empty pattern.  Structural recursion on the fuel keeps the function
kernel-reducible. -/
def replaceAllF (pat rep : List Char) : Nat → List Char → List Char
  | 0, l => l
  | fuel + 1, l =>
    match l with
    | [] => []
    | c :: t =>
      if pat.length ≠ 0 ∧ isPre pat (c :: t) then
        rep ++ replaceAllF pat rep fuel ((c :: t).drop pat.length)
      else
        c :: replaceAllF pat rep fuel t

/-- Python `str.replace(pat, rep)` for a non-empty pattern.  (On an
empty pattern this keeps the string, a case never exercised here.) -/
def replaceAll (pat rep : List Char) (l : List Char) : List Char :=
  replaceAllF pat rep l.length l

/-- Python no-argument `str.split()`: split on whitespace runs, dropping
empty fragments.  The accumulator holds the current word reversed. -/
def wordsAux : List Char → List Char → List (List Char)
  | [], cur => if cur.isEmpty then [] else [cur.reverse]
  | c :: t, cur =>
    if isPySpace c then
      if cur.isEmpty then wordsAux t [] else cur.reverse :: wordsAux t []
    else wordsAux t (c :: cur)

/-- Python `s.split()` (no argument). -/
def wordsPy (l : List Char) : List (List Char) := wordsAux l []

/-! Data model of `src/content_scorer.py` and `src/vision_engine.py`:
`QualityMetrics`, the profile record and its experience entries.  The
scorer consumes the profile as a dict with the same four keys the
pydantic `LinkedInProfile` model has, so one structure serves both.
Scores are modelled as `Nat`: every score the scorer produces is a sum
of non-negative contributions (or a floor of a ratio of such), so the
Python `int` values are provably non-negative. -/

/-- Data class `QualityMetrics` of `src/content_scorer.py`. -/
structure QualityMetrics where
  score : Nat
  max_score : Nat
  feedback : List String
  suggestions : List String
deriving DecidableEq, Repr

/-- Pydantic model `ExperienceItem` of `src/vision_engine.py`; also the
shape of the experience dicts consumed by the scorer. -/
structure ExperienceItem where
  title : String
  company : String
  dates : String
  description : String
deriving DecidableEq, Repr

/-- Pydantic model `LinkedInProfile` of `src/vision_engine.py`; also the
profile dict consumed by `calculate_overall_score`. -/
structure LinkedInProfile where
  headline : String
  about : String
  experience : List ExperienceItem
  skills : List String
deriving DecidableEq, Repr

/-- The `industry_keywords` dict of `ContentQualityScorer.__init__`,
with the Python `dict.get(industry, [])` default built in. -/
def industry_keywords (industry : String) : List String :=
  if industry = "Technology" then
    ["software", "development", "programming", "coding", "tech", "digital", "data", "ai", "ml"]
  else if industry = "Finance" then
    ["financial", "investment", "banking", "trading", "risk", "compliance", "fintech"]
  else if industry = "Healthcare" then
    ["healthcare", "medical", "clinical", "patient", "health", "wellness", "pharmaceutical"]
  else if industry = "Marketing" then
    ["marketing", "brand", "digital", "social", "content", "campaign", "analytics"]
  else if industry = "Sales" then
    ["sales", "revenue", "growth", "client", "business", "account", "relationship"]
  else []

/-- The `action_verbs` list of `ContentQualityScorer.__init__`. -/
def action_verbs : List String :=
  ["led", "managed", "developed", "created", "implemented", "launched",
   "grew", "increased", "reduced", "improved", "optimized", "achieved"]

/-- The `quantifiable_indicators` list of `ContentQualityScorer.__init__`. -/
def quantifiable_indicators : List String :=
  ["%", "$", "number", "count", "increase", "decrease", "growth", "reduction",
   "million", "billion", "thousand", "hundred", "times", "fold"]

/-- The fixed `value_words` list inside `_score_headline`. -/
def value_words : List String := ["helping", "driving", "delivering", "creating", "solving"]

/-- The fixed passive-language list inside `_score_headline`. -/
def passive_words : List String := ["looking", "seeking", "unemployed"]

/-- Method `_score_headline` of `src/content_scorer.py`. -/
def score_headline (headline target_role : String) : QualityMetrics :=
  let hl := lowerStr headline
  let c1 := decide (60 ≤ headline.length) && decide (headline.length ≤ 120)
  let c2 := value_words.any (fun w => containsStr hl w)
  let c3 := containsStr hl (lowerStr target_role)
  let c4 := !(passive_words.any (fun w => containsStr hl w))
  let score := (if c1 then 25 else 0) + (if c2 then 25 else 0) +
    (if c3 then 25 else 0) + (if c4 then 25 else 0)
  let feedback :=
    (if c1 then [] else ["Headline length is not optimal"]) ++
    (if c2 then [] else ["Missing clear value proposition"]) ++
    (if c3 then [] else ["Target role not mentioned"]) ++
    (if c4 then [] else ["Avoid passive language"])
  let suggestions :=
    (if c1 then [] else ["Aim for 60-120 characters for maximum impact"]) ++
    (if c2 then [] else ["Include what value you provide to employers"]) ++
    (if c3 then [] else ["Include \x27" ++ target_role ++ "\x27 in your headline"]) ++
    (if c4 then [] else ["Use active, confident language"])
  ⟨score, 100, feedback, suggestions⟩

/-- The fixed `story_indicators` list inside `_score_about_section`. -/
def story_indicators : List String := ["journey", "passion", "mission", "vision", "story"]

/-- The fixed `cta_indicators` list inside `_score_about_section`. -/
def cta_indicators : List String := ["connect", "reach out", "contact", "opportunity", "collaborate"]

/-- Method `_score_about_section` of `src/content_scorer.py`. -/
def score_about_section (about target_industry : String) : QualityMetrics :=
  let al := lowerStr about
  let word_count := (wordsPy about.data).length
  let c1 := decide (300 ≤ word_count) && decide (word_count ≤ 500)
  let c2 := story_indicators.any (fun w => containsStr al w)
  let keyword_count := (industry_keywords target_industry).countP (fun k => containsStr al (lowerStr k))
  let c3 := decide (3 ≤ keyword_count)
  let quant_count := quantifiable_indicators.countP (fun q => containsStr al q)
  let c4 := decide (2 ≤ quant_count)
  let c5 := cta_indicators.any (fun w => containsStr al w)
  let score := (if c1 then 20 else 0) + (if c2 then 20 else 0) + (if c3 then 20 else 0) +
    (if c4 then 20 else 0) + (if c5 then 20 else 0)
  let feedback :=
    (if c1 then [] else ["About section is " ++ toString word_count ++ " words (ideal: 300-500)"]) ++
    (if c2 then [] else ["Missing storytelling elements"]) ++
    (if c3 then [] else ["Only " ++ toString keyword_count ++ " industry keywords found"]) ++
    (if c4 then [] else ["Missing quantifiable achievements"]) ++
    (if c5 then [] else ["Missing call to action"])
  let suggestions :=
    (if c1 then [] else ["Expand your about section to 300-500 words"]) ++
    (if c2 then [] else ["Add your career story and passion"]) ++
    (if c3 then [] else ["Include more " ++ target_industry ++ " industry keywords"]) ++
    (if c4 then [] else ["Add specific numbers and metrics"]) ++
    (if c5 then [] else ["Add a clear call to action for recruiters"])
  ⟨score, 100, feedback, suggestions⟩

/-- The fixed `impact_indicators` list inside `_score_experience_section`. -/
def impact_indicators : List String := ["resulted in", "led to", "achieved", "improved", "increased"]

/-- One iteration of the per-entry loop of `_score_experience_section`:
the entry score (out of 8+9+8) together with the feedback and
suggestions that iteration appends. -/
def expChecks (exp : ExperienceItem) : Nat × List String × List String :=
  let dl := lowerStr exp.description
  let a := decide (2 ≤ action_verbs.countP (fun v => containsStr dl v))
  let q := decide (1 ≤ quantifiable_indicators.countP (fun i => containsStr dl i))
  let imp := impact_indicators.any (fun i => containsStr dl i)
  ((if a then 8 else 0) + (if q then 9 else 0) + (if imp then 8 else 0),
   (if a then [] else ["Experience \x27" ++ exp.title ++ "\x27 lacks action verbs"]) ++
   (if q then [] else ["Experience \x27" ++ exp.title ++ "\x27 lacks metrics"]) ++
   (if imp then [] else ["Experience \x27" ++ exp.title ++ "\x27 lacks impact statements"]),
   (if a then [] else ["Start bullet points with action verbs"]) ++
   (if q then [] else ["Add specific numbers and results"]) ++
   (if imp then [] else ["Show the impact of your work"]))

/-- Method `_score_experience_section` of `src/content_scorer.py`.  The
Python `int((actual_score / total_possible_score) * 100)` is the floor
of the exact ratio, i.e. `Nat` division. -/
def score_experience_section (experiences : List ExperienceItem) : QualityMetrics :=
  if experiences.isEmpty then
    ⟨0, 100, ["No experience entries found"], ["Add your work experience"]⟩
  else
    let per := experiences.map expChecks
    let actual := (per.map (fun x => x.1)).sum
    let feedback := (per.map (fun x => x.2.1)).flatten
    let suggestions := (per.map (fun x => x.2.2)).flatten
    let total := experiences.length * 25
    ⟨actual * 100 / total, 100, feedback, suggestions⟩

/-- The fixed `technical_indicators` list inside `_score_skills_section`. -/
def technical_indicators : List String :=
  ["python", "java", "javascript", "sql", "aws", "docker", "kubernetes"]

/-- The fixed `soft_indicators` list inside `_score_skills_section`. -/
def soft_indicators : List String :=
  ["leadership", "communication", "teamwork", "management", "strategy"]

/-- Method `_score_skills_section` of `src/content_scorer.py`. -/
def score_skills_section (skills : List String) (target_industry : String) : QualityMetrics :=
  if skills.isEmpty then
    ⟨0, 100, ["No skills listed"], ["Add your relevant skills"]⟩
  else
    let c1 := decide (10 ≤ skills.length) && decide (skills.length ≤ 15)
    let kws := industry_keywords target_industry
    let relevant_skills := skills.filter (fun s => kws.any (fun k => containsStr (lowerStr s) k))
    let c2 := decide (5 ≤ relevant_skills.length)
    let technical_skills := skills.filter (fun s => technical_indicators.any (fun i => containsStr (lowerStr s) i))
    let soft_skills := skills.filter (fun s => soft_indicators.any (fun i => containsStr (lowerStr s) i))
    let c3 := !technical_skills.isEmpty && !soft_skills.isEmpty
    let score := (if c1 then 30 else 0) + (if c2 then 40 else 0) + (if c3 then 30 else 0)
    let feedback :=
      (if c1 then [] else ["Skills count: " ++ toString skills.length ++ " (ideal: 10-15)"]) ++
      (if c2 then [] else ["Only " ++ toString relevant_skills.length ++ " industry-relevant skills"]) ++
      (if c3 then [] else ["Balance technical and soft skills"])
    let suggestions :=
      (if c1 then [] else ["Aim for 10-15 relevant skills"]) ++
      (if c2 then [] else ["Add more " ++ target_industry ++ " specific skills"]) ++
      (if c3 then [] else ["Include both technical and soft skills"])
    ⟨score, 100, feedback, suggestions⟩

/-- Method `_calculate_overall_profile_score` of `src/content_scorer.py`:
weighted average with weights 0.2 / 0.3 / 0.35 / 0.15, truncated with
`int(...)`; exactly `(4 h + 6 a + 7 e + 3 s) / 20` floored.  Feedback and
suggestions are concatenated in dict insertion order. -/
def calculate_overall_profile_score (h a e s : QualityMetrics) : QualityMetrics :=
  ⟨(h.score * 4 + a.score * 6 + e.score * 7 + s.score * 3) / 20, 100,
   h.feedback ++ a.feedback ++ e.feedback ++ s.feedback,
   h.suggestions ++ a.suggestions ++ e.suggestions ++ s.suggestions⟩

/-- The five metrics returned by `calculate_overall_score`, one field per
key of the Python result dict. -/
structure SectionScores where
  headline : QualityMetrics
  about : QualityMetrics
  experience : QualityMetrics
  skills : QualityMetrics
  overall : QualityMetrics
deriving DecidableEq, Repr

/-- Method `calculate_overall_score` of `src/content_scorer.py`. -/
def calculate_overall_score (p : LinkedInProfile) (target_industry target_role : String) :
    SectionScores :=
  let h := score_headline p.headline target_role
  let a := score_about_section p.about target_industry
  let e := score_experience_section p.experience
  let s := score_skills_section p.skills target_industry
  ⟨h, a, e, s, calculate_overall_profile_score h a e s⟩

/-! Method `get_quality_recommendations` of `src/content_scorer.py`.
The quality-scores dict it receives (as produced by
`score_profile_content`) maps string keys to either ints or lists of
strings, modelled by `QVal`; the dict itself is an association list in
insertion order with unique keys.  The Python comparison
`score < max_score * 0.7` is the exact rational comparison
`10 * score < 7 * max_score` (for the `max_score = 100` the scorer
produces, `100 * 0.7` is exactly the double `70.0`).  Python's
`list(set(...))` returns the distinct elements in unspecified order;
it is modelled by `List.dedup`. -/

/-- A value of the quality-scores dict: an int or a list of strings. -/
inductive QVal where
  | i (n : Int)
  | l (xs : List String)
deriving DecidableEq, Repr

/-- Python `dict` lookup on the association list. -/
def dictGet (qs : List (String × QVal)) (k : String) : Option QVal :=
  (qs.find? (fun kv => kv.1 == k)).map (fun kv => kv.2)

/-- Python `s.endswith(pat)`. -/
def strEndsWith (s pat : String) : Bool := isSuf pat.data s.data

/-- The `key.replace("_score", "")` section-name derivation. -/
def sectionOf (k : String) : String := ⟨replaceAll ("_score".data) [] k.data⟩

/-- The `quality_scores.get(section + "_max_score", 100)` lookup.  A
non-int value at that key is treated as the default (the Python code
would raise on the subsequent comparison; that error path is outside
the dict shapes the scorer produces). -/
def maxScoreOf (qs : List (String × QVal)) (sec : String) : Int :=
  match dictGet qs (sec ++ "_max_score") with
  | some (QVal.i n) => n
  | _ => 100

/-- The `quality_scores.get(section + "_feedback", [])` lookup, with the
same shape restriction as `maxScoreOf`. -/
def feedbackOf (qs : List (String × QVal)) (sec : String) : List String :=
  match dictGet qs (sec ++ "_feedback") with
  | some (QVal.l xs) => xs
  | _ => []

/-- One iteration of the loop in `get_quality_recommendations`. -/
def qrStep (qs : List (String × QVal)) (acc : List String) (kv : String × QVal) : List String :=
  match kv.2 with
  | QVal.i score =>
    if strEndsWith kv.1 "_score" then
      if 10 * score < 7 * maxScoreOf qs (sectionOf kv.1) then
        acc ++ feedbackOf qs (sectionOf kv.1)
      else acc
    else acc
  | _ => acc

/-- Method `get_quality_recommendations` of `src/content_scorer.py`. -/
def get_quality_recommendations (qs : List (String × QVal)) : List String :=
  (qs.foldl (qrStep qs) []).dedup

/-! Theorems for the content scorer claims. -/

lemma expChecks_le (x : ExperienceItem) : (expChecks x).1 ≤ 25 := by
  simp only [expChecks]
  split_ifs <;> omega

lemma sum_expChecks_le (l : List ExperienceItem) :
    ((l.map (fun x => (expChecks x).1)).sum ≤ l.length * 25) := by
  induction l with
  | nil => simp
  | cons x t ih =>
    simp only [List.map_cons, List.sum_cons, List.length_cons]
    have := expChecks_le x
    omega

lemma score_headline_le (h r : String) : (score_headline h r).score ≤ 100 := by
  simp only [score_headline]
  split_ifs <;> omega

lemma score_about_le (a ti : String) : (score_about_section a ti).score ≤ 100 := by
  simp only [score_about_section]
  split_ifs <;> omega

lemma score_experience_le (l : List ExperienceItem) : (score_experience_section l).score ≤ 100 := by
  rcases l with _ | ⟨e, es⟩
  · simp [score_experience_section]
  · have hred : (score_experience_section (e :: es)).score =
        ((e :: es).map (fun x => (expChecks x).1)).sum * 100 / ((e :: es).length * 25) := by
      simp [score_experience_section, List.map_map, Function.comp_def]
    rw [hred]
    have hsum := sum_expChecks_le (e :: es)
    have hlen : 0 < (e :: es).length * 25 := by simp
    calc ((e :: es).map (fun x => (expChecks x).1)).sum * 100 / ((e :: es).length * 25)
        ≤ (e :: es).length * 25 * 100 / ((e :: es).length * 25) :=
          Nat.div_le_div_right (by exact Nat.mul_le_mul_right 100 hsum)
      _ = 100 := Nat.mul_div_cancel_left 100 hlen

lemma score_skills_le (l : List String) (ti : String) : (score_skills_section l ti).score ≤ 100 := by
  rcases l with _ | ⟨s, ss⟩
  · simp [score_skills_section]
  · simp only [score_skills_section, List.isEmpty_cons, Bool.false_eq_true, if_false]
    split_ifs <;> omega

lemma overall_le (h a e s : QualityMetrics)
    (hh : h.score ≤ 100) (ha : a.score ≤ 100) (he : e.score ≤ 100) (hs : s.score ≤ 100) :
    (calculate_overall_profile_score h a e s).score ≤ 100 := by
  simp only [calculate_overall_profile_score]
  have : h.score * 4 + a.score * 6 + e.score * 7 + s.score * 3 ≤ 2000 := by omega
  calc (h.score * 4 + a.score * 6 + e.score * 7 + s.score * 3) / 20
      ≤ 2000 / 20 := Nat.div_le_div_right this
    _ = 100 := by norm_num

/-- C5: a headline of length 60–120 that contains a value verb and the
target role (case-insensitively) and no passive-language term scores
exactly 100 in `_score_headline`. -/
theorem headline_perfect_score (headline target_role : String)
    (h1 : 60 ≤ headline.length) (h2 : headline.length ≤ 120)
    (h3 : ∃ w ∈ value_words, containsStr (lowerStr headline) w = true)
    (h4 : containsStr (lowerStr headline) (lowerStr target_role) = true)
    (h5 : ∀ w ∈ passive_words, containsStr (lowerStr headline) w = false) :
    (score_headline headline target_role).score = 100 := by
  have hc1 : (decide (60 ≤ headline.length) && decide (headline.length ≤ 120)) = true := by
    simp [h1, h2]
  have hc2 : value_words.any (fun w => containsStr (lowerStr headline) w) = true := by
    rw [List.any_eq_true]
    obtain ⟨w, hw, hcw⟩ := h3
    exact ⟨w, hw, hcw⟩
  have hc4 : passive_words.any (fun w => containsStr (lowerStr headline) w) = false := by
    rw [List.any_eq_false]
    intro w hw
    simp [h5 w hw]
  simp [score_headline, hc1, hc2, h4, hc4]

/-- Witness for C5 at a concrete 65-character headline. -/
theorem headline_perfect_score_witness :
    (score_headline "Helping teams deliver reliable software engineer onboarding tools"
      "Software Engineer").score = 100 :=
  headline_perfect_score _ _ (by decide) (by decide) (by decide) (by decide) (by decide)

/-- C6: with no experience entries and no skills, `_score_experience_section`
and `_score_skills_section` both return score 0 with non-empty feedback. -/
theorem empty_sections_score_zero (target_industry : String) :
    (score_experience_section []).score = 0 ∧
    (score_experience_section []).feedback ≠ [] ∧
    (score_skills_section [] target_industry).score = 0 ∧
    (score_skills_section [] target_industry).feedback ≠ [] := by
  refine ⟨rfl, ?_, rfl, ?_⟩
  · simp [score_experience_section]
  · simp [score_skills_section]

/-- C9: every one of the five `QualityMetrics` computed by
`calculate_overall_score` has a score of at most 100 (the scores are
`Nat`, so at least 0 by construction) and `max_score` equal to 100. -/
theorem all_scores_bounded (p : LinkedInProfile) (ti tr : String) :
    ((calculate_overall_score p ti tr).headline.score ≤ 100 ∧
      (calculate_overall_score p ti tr).headline.max_score = 100) ∧
    ((calculate_overall_score p ti tr).about.score ≤ 100 ∧
      (calculate_overall_score p ti tr).about.max_score = 100) ∧
    ((calculate_overall_score p ti tr).experience.score ≤ 100 ∧
      (calculate_overall_score p ti tr).experience.max_score = 100) ∧
    ((calculate_overall_score p ti tr).skills.score ≤ 100 ∧
      (calculate_overall_score p ti tr).skills.max_score = 100) ∧
    ((calculate_overall_score p ti tr).overall.score ≤ 100 ∧
      (calculate_overall_score p ti tr).overall.max_score = 100) := by
  have hmaxh : (score_headline p.headline tr).max_score = 100 := by simp [score_headline]
  have hmaxa : (score_about_section p.about ti).max_score = 100 := by simp [score_about_section]
  have hmaxe : (score_experience_section p.experience).max_score = 100 := by
    rcases p.experience with _ | ⟨e, es⟩ <;> simp [score_experience_section]
  have hmaxs : (score_skills_section p.skills ti).max_score = 100 := by
    rcases p.skills with _ | ⟨s, ss⟩ <;> simp [score_skills_section]
  refine ⟨⟨score_headline_le _ _, hmaxh⟩, ⟨score_about_le _ _, hmaxa⟩,
    ⟨score_experience_le _, hmaxe⟩, ⟨score_skills_le _ _, hmaxs⟩,
    ⟨overall_le _ _ _ _ (score_headline_le _ _) (score_about_le _ _)
      (score_experience_le _) (score_skills_le _ _), rfl⟩⟩

lemma qrStep_spec (qs : List (String × QVal)) :
    ∀ (l : List (String × QVal)) (acc : List String), (∀ x ∈ l, x ∈ qs) →
      ∀ r ∈ l.foldl (qrStep qs) acc, r ∈ acc ∨ ∃ k score,
        (k, QVal.i score) ∈ qs ∧ strEndsWith k "_score" = true ∧
        10 * score < 7 * maxScoreOf qs (sectionOf k) ∧
        r ∈ feedbackOf qs (sectionOf k) := by
  intro l
  induction l with
  | nil =>
    intro acc _ r hr
    exact Or.inl hr
  | cons kv t ih =>
    intro acc hsub r hr
    simp only [List.foldl_cons] at hr
    have hkv : kv ∈ qs := hsub kv (by simp)
    have hsub' : ∀ x ∈ t, x ∈ qs := fun x hx => hsub x (by simp [hx])
    rcases ih (qrStep qs acc kv) hsub' r hr with hacc | hP
    · -- r came from the accumulator after one step: analyse the step
      rcases kv with ⟨k, v⟩
      rcases v with n | xs
      · simp only [qrStep] at hacc
        by_cases hend : strEndsWith k "_score" = true
        · rw [if_pos hend] at hacc
          by_cases hlt : 10 * n < 7 * maxScoreOf qs (sectionOf k)
          · rw [if_pos hlt] at hacc
            rcases List.mem_append.mp hacc with h | h
            · exact Or.inl h
            · exact Or.inr ⟨k, n, hkv, hend, hlt, h⟩
          · rw [if_neg hlt] at hacc
            exact Or.inl hacc
        · rw [if_neg hend] at hacc
          exact Or.inl hacc
      · simp only [qrStep] at hacc
        exact Or.inl hacc
    · exact Or.inr hP

/-- C10: `get_quality_recommendations` returns a duplicate-free list, and
every returned string comes from the feedback list of a section whose
integer score entry is strictly below 70 percent of that section's
max score. -/
theorem quality_recommendations_sound (qs : List (String × QVal)) :
    (get_quality_recommendations qs).Nodup ∧
    ∀ r ∈ get_quality_recommendations qs, ∃ k score,
      (k, QVal.i score) ∈ qs ∧ strEndsWith k "_score" = true ∧
      10 * score < 7 * maxScoreOf qs (sectionOf k) ∧
      r ∈ feedbackOf qs (sectionOf k) := by
  constructor
  · exact List.nodup_dedup _
  · intro r hr
    have hr' : r ∈ qs.foldl (qrStep qs) [] := (List.mem_dedup).mp hr
    rcases qrStep_spec qs qs [] (fun x hx => hx) r hr' with h | h
    · simp at h
    · exact h

/-- The demo quality-scores dict used by the C10 witness. -/
def qdemo : List (String × QVal) :=
  [("headline_score", QVal.i 50), ("headline_max_score", QVal.i 100),
   ("headline_feedback", QVal.l ["Fix headline"])]

/-- Witness for C10: the single recommendation produced on `qdemo` does
come from a below-threshold section's feedback. -/
theorem quality_recommendations_sound_witness :
    ∃ k score, (k, QVal.i score) ∈ qdemo ∧ strEndsWith k "_score" = true ∧
      10 * score < 7 * maxScoreOf qdemo (sectionOf k) ∧
      "Fix headline" ∈ feedbackOf qdemo (sectionOf k) :=
  (quality_recommendations_sound qdemo).2 "Fix headline" (by decide)

/-! Embedding of the gap analyzer, `src/profile_gap_analyzer.py`: the
gap records, `_prioritize_gaps` and `_calculate_completeness_score`.
Python's stable `sorted(gaps, key=...)` with the tuple key
`(priority_rank, -impact_score)` is modelled by the (stable) `mergeSort`
under the decidable lexicographic comparison on that key.  The Python
`int((total_impact / max_impact) * 50)` truncates the exact ratio toward
zero, which is `Int.tdiv` (the operand magnitudes here keep the
double-precision computation at the same integer). -/

/-- A gap record as built throughout `profile_gap_analyzer.py`. -/
structure Gap where
  category : String
  gap_type : String
  description : String
  priority : String
  action_required : String
  effort_level : String
  impact_score : Int
deriving DecidableEq, Repr

/-- The `priority_order` dict of `_prioritize_gaps`, with its
`.get(priority, 4)` default. -/
def priority_order (p : String) : Nat :=
  if p = "critical" then 0
  else if p = "high" then 1
  else if p = "medium" then 2
  else if p = "low" then 3
  else 4

/-- Lexicographic comparison of the Python sort key
`(priority_order[priority], -impact_score)`. -/
def gapLe (a b : Gap) : Bool :=
  decide (priority_order a.priority < priority_order b.priority ∨
    (priority_order a.priority = priority_order b.priority ∧
      -a.impact_score ≤ -b.impact_score))

/-- Method `_prioritize_gaps` of `src/profile_gap_analyzer.py`. -/
def prioritize_gaps (gaps : List Gap) : List Gap := gaps.mergeSort gapLe

/-- Method `_calculate_completeness_score` of
`src/profile_gap_analyzer.py`. -/
def calculate_completeness_score (gaps : List Gap) : Int :=
  if gaps.isEmpty then 95
  else
    let total_impact := (gaps.map (fun g => g.impact_score)).sum
    let max_impact : Int := gaps.length * 10
    if max_impact = 0 then 95
    else
      let deduction := min 50 (Int.tdiv (total_impact * 50) max_impact)
      max 30 (95 - deduction)

lemma gapLe_trans (a b c : Gap) (hab : gapLe a b) (hbc : gapLe b c) : gapLe a c := by
  simp only [gapLe, decide_eq_true_eq] at hab hbc ⊢
  rcases hab with h | ⟨h1, h2⟩ <;> rcases hbc with h' | ⟨h1', h2'⟩
  · exact Or.inl (lt_trans h h')
  · exact Or.inl (h1' ▸ h)
  · exact Or.inl (h1 ▸ h')
  · exact Or.inr ⟨h1.trans h1', le_trans h2 h2'⟩

lemma gapLe_total (a b : Gap) : gapLe a b || gapLe b a := by
  simp only [gapLe, Bool.or_eq_true, decide_eq_true_eq]
  rcases lt_trichotomy (priority_order a.priority) (priority_order b.priority) with h | h | h
  · exact Or.inl (Or.inl h)
  · rcases le_total (-a.impact_score) (-b.impact_score) with h2 | h2
    · exact Or.inl (Or.inr ⟨h, h2⟩)
    · exact Or.inr (Or.inr ⟨h.symm, h2⟩)
  · exact Or.inr (Or.inl h)

/-- C7: in the output of `_prioritize_gaps`, no "medium"-priority gap
precedes a "critical"-priority one, and among gaps of equal priority the
impact scores are non-increasing (higher impact first). -/
theorem prioritize_gaps_ordering (gaps : List Gap) (i j : Nat)
    (hij : i < j) (hj : j < (prioritize_gaps gaps).length) :
    (¬(((prioritize_gaps gaps).get ⟨i, lt_trans hij hj⟩).priority = "medium" ∧
       ((prioritize_gaps gaps).get ⟨j, hj⟩).priority = "critical")) ∧
    (((prioritize_gaps gaps).get ⟨i, lt_trans hij hj⟩).priority =
        ((prioritize_gaps gaps).get ⟨j, hj⟩).priority →
      ((prioritize_gaps gaps).get ⟨j, hj⟩).impact_score ≤
        ((prioritize_gaps gaps).get ⟨i, lt_trans hij hj⟩).impact_score) := by
  have hp : (prioritize_gaps gaps).Pairwise (fun a b => gapLe a b = true) :=
    List.sorted_mergeSort (fun a b c => gapLe_trans a b c) (fun a b => gapLe_total a b) gaps
  have hrel := List.pairwise_iff_get.mp hp ⟨i, lt_trans hij hj⟩ ⟨j, hj⟩ (Fin.mk_lt_mk.mpr hij)
  simp only [gapLe, decide_eq_true_eq] at hrel
  constructor
  · rintro ⟨hm, hc⟩
    rw [hm, hc] at hrel
    simp [priority_order] at hrel
  · intro hpq
    rcases hrel with h | ⟨_, h2⟩
    · rw [hpq] at h
      exact absurd h (lt_irrefl _)
    · omega

/-- Concrete medium-priority gap for the C7 witness. -/
def gmed : Gap := ⟨"skills", "missing", "few skills", "medium", "add skills", "quick_win", 9⟩

/-- Concrete critical-priority gap for the C7 witness. -/
def gcrit : Gap := ⟨"headline", "missing", "no headline", "critical", "add one", "quick_win", 1⟩

/-- Witness for C7 on a two-element gap list. -/
theorem prioritize_gaps_ordering_witness :
    (¬(((prioritize_gaps [gmed, gcrit]).get
          ⟨0, by simp [prioritize_gaps]⟩).priority = "medium" ∧
       ((prioritize_gaps [gmed, gcrit]).get ⟨1, by simp [prioritize_gaps]⟩).priority = "critical")) ∧
    (((prioritize_gaps [gmed, gcrit]).get
          ⟨0, by simp [prioritize_gaps]⟩).priority =
        ((prioritize_gaps [gmed, gcrit]).get ⟨1, by simp [prioritize_gaps]⟩).priority →
      ((prioritize_gaps [gmed, gcrit]).get ⟨1, by simp [prioritize_gaps]⟩).impact_score ≤
        ((prioritize_gaps [gmed, gcrit]).get
          ⟨0, by simp [prioritize_gaps]⟩).impact_score) :=
  prioritize_gaps_ordering [gmed, gcrit] 0 1 (by norm_num) (by simp [prioritize_gaps])

/-- Concrete impact-10 gap for the C1 counterexample. -/
def gTen : Gap := ⟨"about", "missing", "no about", "high", "write one", "moderate", 10⟩

/-- Concrete impact-1 gap for the C1 counterexample. -/
def gOne : Gap := ⟨"skills", "weak", "few skills", "low", "add skills", "quick_win", 1⟩

/-- Counterexample to C1 as stated: appending a gap with positive impact
score 1 to a single impact-10 gap RAISES the completeness score from 45
to 68, because the deduction depends on the average (not total) impact. -/
theorem completeness_not_monotone :
    0 < gOne.impact_score ∧
    calculate_completeness_score [gTen] < calculate_completeness_score ([gTen] ++ [gOne]) := by
  constructor
  · decide
  · decide

lemma gap_sum_nonneg (l : List Gap) (h : ∀ x ∈ l, 0 ≤ x.impact_score) :
    0 ≤ (l.map (fun g => g.impact_score)).sum := by
  induction l with
  | nil => simp
  | cons x t ih =>
    simp only [List.map_cons, List.sum_cons]
    have hx := h x (by simp)
    have ht := ih (fun y hy => h y (by simp [hy]))
    omega

lemma ediv_le_ediv_cross {a b c d : Int} (hb : 0 < b) (hd : 0 < d)
    (h : a * d ≤ c * b) : a / b ≤ c / d := by
  rw [Int.le_ediv_iff_mul_le hd]
  have h1 : a / b * b ≤ a := Int.ediv_mul_le a (ne_of_gt hb)
  have h2 : a / b * b * d ≤ c * b :=
    le_trans (mul_le_mul_of_nonneg_right h1 (le_of_lt hd)) h
  have h3 : a / b * d * b ≤ c * b := by
    calc a / b * d * b = a / b * b * d := by ring
      _ ≤ c * b := h2
  exact le_of_mul_le_mul_right h3 hb

/-- C1 amended: appending a gap of positive impact score does not raise
the completeness score provided the new gap's impact is at least the
mean impact of the existing gaps (the score penalizes the average
impact, so below-average additions can raise it — see the
counterexample). -/
theorem completeness_mean_monotone (gaps : List Gap) (g : Gap)
    (hpos : ∀ x ∈ gaps, 0 ≤ x.impact_score) (hg : 0 < g.impact_score)
    (hmean : (gaps.map (fun x => x.impact_score)).sum ≤ g.impact_score * gaps.length) :
    calculate_completeness_score (gaps ++ [g]) ≤ calculate_completeness_score gaps := by
  rcases gaps with _ | ⟨x, xs⟩
  · -- appending to the empty list: the right side is the fixed 95
    simp only [calculate_completeness_score, List.nil_append, List.isEmpty_cons,
      List.isEmpty_nil, Bool.false_eq_true, if_false, if_true]
    have h10 : ((([g] : List Gap).length : Int) * 10) = 10 := by simp
    rw [if_neg (by simp)]
    have hded : 0 ≤ min 50 (Int.tdiv ((([g] : List Gap).map (fun g => g.impact_score)).sum * 50)
        ((([g] : List Gap).length : Int) * 10)) := by
      refine le_min (by norm_num) ?_
      refine Int.tdiv_nonneg ?_ (by simp)
      simp only [List.map_cons, List.map_nil, List.sum_cons, List.sum_nil]
      omega
    set d := min 50 (Int.tdiv ((([g] : List Gap).map (fun g => g.impact_score)).sum * 50)
        ((([g] : List Gap).length : Int) * 10)) with hdef
    have : 95 - d ≤ 95 := by omega
    exact max_le (by norm_num) this
  · -- non-empty original list
    have hlen : (0 : Int) < ((x :: xs).length : Int) := by
      simp
    set n : Int := ((x :: xs).length : Int) with hn
    set T : Int := ((x :: xs).map (fun g => g.impact_score)).sum with hT
    have hT0 : 0 ≤ T := gap_sum_nonneg _ hpos
    have hsum' : (((x :: xs) ++ [g]).map (fun g => g.impact_score)).sum = T + g.impact_score := by
      simp [hT, add_assoc]
    have hlen' : ((((x :: xs) ++ [g]).length : Int)) = n + 1 := by
      simp [hn]
    have hne : ((x :: xs) ++ [g]).isEmpty = false := by simp
    simp only [calculate_completeness_score, hne, List.isEmpty_cons, Bool.false_eq_true,
      if_false, hsum', hlen']
    rw [if_neg (by positivity), if_neg (by positivity)]
    -- compare the two truncated deductions
    have htd1 : Int.tdiv (T * 50) (n * 10) = (T * 50) / (n * 10) :=
      Int.tdiv_eq_ediv (by positivity) (by positivity)
    have htd2 : Int.tdiv ((T + g.impact_score) * 50) ((n + 1) * 10) =
        ((T + g.impact_score) * 50) / ((n + 1) * 10) :=
      Int.tdiv_eq_ediv (by positivity) (by positivity)
    have hcross : (T * 50) * ((n + 1) * 10) ≤ ((T + g.impact_score) * 50) * (n * 10) := by
      have hm : T ≤ g.impact_score * n := hmean
      nlinarith [hm]
    have hdiv : (T * 50) / (n * 10) ≤ ((T + g.impact_score) * 50) / ((n + 1) * 10) :=
      ediv_le_ediv_cross (by positivity) (by positivity) hcross
    have hded : min 50 (Int.tdiv (T * 50) (n * 10)) ≤
        min 50 (Int.tdiv ((T + g.impact_score) * 50) ((n + 1) * 10)) := by
      rw [htd1, htd2]
      exact min_le_min le_rfl hdiv
    have : 95 - min 50 (Int.tdiv ((T + g.impact_score) * 50) ((n + 1) * 10)) ≤
        95 - min 50 (Int.tdiv (T * 50) (n * 10)) := by omega
    exact max_le_max le_rfl this

/-- Concrete impact-5 gap for the C1 amended witness. -/
def gFive : Gap := ⟨"experience", "weak", "thin detail", "high", "expand", "moderate", 5⟩

/-- Witness for the amended C1 at a gap whose impact equals the mean. -/
theorem completeness_mean_monotone_witness :
    calculate_completeness_score ([gFive] ++ [gFive]) ≤ calculate_completeness_score [gFive] :=
  completeness_mean_monotone [gFive] gFive (by decide) (by decide) (by decide)

/-! Embedding of the report section extractor `_find_section` of
`src/one_click_implementation.py`.  The `section_headers.index(...)`
call raises `ValueError` when the requested name is not in the fixed
list, modelled by `none`; `report.find` returning `-1` is modelled by
`listFind` returning `none` and yields the empty string. -/

/-- The fixed ordered heading list inside `_find_section`. -/
def section_headers : List String :=
  ["OVERALL PROFILE REVIEW", "HEADLINE OPTIMIZATION", "ABOUT SECTION COMPLETE REWRITE",
   "EXPERIENCE SECTION ENHANCEMENT", "SKILLS STRATEGY", "RECOMMENDATIONS STRATEGY",
   "CONTENT & ENGAGEMENT PLAN"]

/-- The loop of `_find_section` that walks the headings after the
requested one and stops at the first whose first occurrence in the
report lies strictly after `start_pos`, defaulting to end-of-string. -/
def findEndPos (report : List Char) (start_pos : Nat) : List String → Nat
  | [] => report.length
  | h :: t =>
    match listFind h.data report with
    | some p => if start_pos < p then p else findEndPos report start_pos t
    | none => findEndPos report start_pos t

/-- Method `_find_section` of `src/one_click_implementation.py`. -/
def find_section (report section_name : String) : Option String :=
  match listFind section_name.data report.data with
  | none => some ""
  | some start_pos =>
    match section_headers.findIdx? (fun h => h == section_name) with
    | none => none
    | some ci =>
      let end_pos := findEndPos report.data start_pos (section_headers.drop (ci + 1))
      some ⟨(report.data.drop start_pos).take (end_pos - start_pos)⟩

lemma isPre_self_append (p rest : List Char) : isPre p (p ++ rest) = true := by
  induction p with
  | nil => simp [isPre]
  | cons c t ih => simp [isPre, ih]

lemma listFind_of_isPre {p l : List Char} (h : isPre p l = true) : listFind p l = some 0 := by
  cases l <;> simp [listFind, h]

lemma findEndPos_cons_found {report : List Char} {start : Nat} {h : String} {t : List String}
    {p : Nat} (hf : listFind h.data report = some p) (hlt : start < p) :
    findEndPos report start (h :: t) = p := by
  simp [findEndPos, hf, hlt]

lemma findEndPos_cons_miss {report : List Char} {start : Nat} {h : String} {t : List String}
    (hf : listFind h.data report = none) :
    findEndPos report start (h :: t) = findEndPos report start t := by
  simp [findEndPos, hf]

lemma findEndPos_nil (report : List Char) (start : Nat) :
    findEndPos report start [] = report.length := rfl

/-- Counterexample to C2 as stated: on a report consisting of the
heading, intermediate content, the next heading and trailing text,
`_find_section` returns the slice starting AT the requested heading —
the heading itself is included — rather than just the text between the
two headings. -/
theorem find_section_includes_heading :
    find_section ("HEADLINE OPTIMIZATION" ++ "\ncontent\n" ++
        "ABOUT SECTION COMPLETE REWRITE" ++ "\nrest") "HEADLINE OPTIMIZATION"
      = some ("HEADLINE OPTIMIZATION" ++ "\ncontent\n") ∧
    ("HEADLINE OPTIMIZATION" ++ "\ncontent\n" : String) ≠ ("\ncontent\n" : String) := by
  constructor
  · decide
  · decide

/-- C2 amended: `_find_section` returns the requested heading together
with the text up to (and excluding) the next heading; with no later
heading present the slice extends to end-of-string; an absent heading
yields the empty string. -/
theorem find_section_spec :
    (∀ mid post : String,
      listFind ("ABOUT SECTION COMPLETE REWRITE" : String).data
          ("HEADLINE OPTIMIZATION" ++ mid ++ "ABOUT SECTION COMPLETE REWRITE" ++ post).data
        = some (("HEADLINE OPTIMIZATION" ++ mid : String).length) →
      find_section ("HEADLINE OPTIMIZATION" ++ mid ++ "ABOUT SECTION COMPLETE REWRITE" ++ post)
          "HEADLINE OPTIMIZATION" = some ("HEADLINE OPTIMIZATION" ++ mid)) ∧
    (∀ mid : String,
      (∀ h ∈ section_headers.drop 2,
        listFind h.data ("HEADLINE OPTIMIZATION" ++ mid : String).data = none) →
      find_section ("HEADLINE OPTIMIZATION" ++ mid) "HEADLINE OPTIMIZATION"
        = some ("HEADLINE OPTIMIZATION" ++ mid)) ∧
    (∀ r : String, listFind ("HEADLINE OPTIMIZATION" : String).data r.data = none →
      find_section r "HEADLINE OPTIMIZATION" = some "") := by
  have hidx : section_headers.findIdx? (fun h => h == "HEADLINE OPTIMIZATION") = some 1 := by
    decide
  refine ⟨?_, ?_, ?_⟩
  · intro mid post hfind
    have hstart : listFind ("HEADLINE OPTIMIZATION" : String).data
        ("HEADLINE OPTIMIZATION" ++ mid ++ "ABOUT SECTION COMPLETE REWRITE" ++ post).data
          = some 0 := by
      apply listFind_of_isPre
      have hdata : ("HEADLINE OPTIMIZATION" ++ mid ++ "ABOUT SECTION COMPLETE REWRITE"
          ++ post).data = ("HEADLINE OPTIMIZATION" : String).data ++
            (mid.data ++ ("ABOUT SECTION COMPLETE REWRITE" : String).data ++ post.data) := by
        simp
      rw [hdata]
      exact isPre_self_append _ _
    have hlenpos : 0 < ("HEADLINE OPTIMIZATION" ++ mid : String).length := by
      simp only [String.length_append]
      have h21 : 0 < ("HEADLINE OPTIMIZATION" : String).length := by decide
      omega
    simp only [find_section, hstart, hidx]
    have hdrop : section_headers.drop (1 + 1) =
        ["ABOUT SECTION COMPLETE REWRITE", "EXPERIENCE SECTION ENHANCEMENT",
         "SKILLS STRATEGY", "RECOMMENDATIONS STRATEGY", "CONTENT & ENGAGEMENT PLAN"] := by
      decide
    rw [hdrop, findEndPos_cons_found hfind hlenpos]
    congr 1
    apply String.ext
    simp only [String.data_append, List.drop_zero, Nat.sub_zero]
    have : ("HEADLINE OPTIMIZATION" ++ mid : String).length =
        (("HEADLINE OPTIMIZATION" : String).data ++ mid.data).length := rfl
    rw [this, List.append_assoc, List.append_assoc]
    rw [List.take_append_eq_append_take]
    simp
  · intro mid hnone
    have hstart : listFind ("HEADLINE OPTIMIZATION" : String).data
        ("HEADLINE OPTIMIZATION" ++ mid).data = some 0 := by
      apply listFind_of_isPre
      have hdata : ("HEADLINE OPTIMIZATION" ++ mid).data =
          ("HEADLINE OPTIMIZATION" : String).data ++ mid.data := by simp
      rw [hdata]
      exact isPre_self_append _ _
    simp only [find_section, hstart, hidx]
    have hdrop : section_headers.drop (1 + 1) =
        ["ABOUT SECTION COMPLETE REWRITE", "EXPERIENCE SECTION ENHANCEMENT",
         "SKILLS STRATEGY", "RECOMMENDATIONS STRATEGY", "CONTENT & ENGAGEMENT PLAN"] := by
      decide
    have h1 := hnone "ABOUT SECTION COMPLETE REWRITE" (by rw [hdrop]; simp)
    have h2 := hnone "EXPERIENCE SECTION ENHANCEMENT" (by rw [hdrop]; simp)
    have h3 := hnone "SKILLS STRATEGY" (by rw [hdrop]; simp)
    have h4 := hnone "RECOMMENDATIONS STRATEGY" (by rw [hdrop]; simp)
    have h5 := hnone "CONTENT & ENGAGEMENT PLAN" (by rw [hdrop]; simp)
    rw [hdrop, findEndPos_cons_miss h1, findEndPos_cons_miss h2, findEndPos_cons_miss h3,
      findEndPos_cons_miss h4, findEndPos_cons_miss h5, findEndPos_nil]
    congr 1
    apply String.ext
    simp
  · intro r hnone
    simp [find_section, hnone]

/-- Witness for the amended C2, instantiating all three parts at
concrete reports. -/
theorem find_section_spec_witness :
    (find_section ("HEADLINE OPTIMIZATION" ++ "\ncontent\n" ++
        "ABOUT SECTION COMPLETE REWRITE" ++ "\nrest") "HEADLINE OPTIMIZATION"
      = some ("HEADLINE OPTIMIZATION" ++ "\ncontent\n")) ∧
    (find_section ("HEADLINE OPTIMIZATION" ++ "\ntail only") "HEADLINE OPTIMIZATION"
      = some ("HEADLINE OPTIMIZATION" ++ "\ntail only")) ∧
    (find_section "a report with no headings at all" "HEADLINE OPTIMIZATION" = some "") :=
  ⟨find_section_spec.1 "\ncontent\n" "\nrest" (by decide),
   find_section_spec.2.1 "\ntail only" (by decide),
   find_section_spec.2.2 "a report with no headings at all" (by decide)⟩

/-! Embedding of `TelemetryLogger._add_log_entry` of `src/telemetry.py`.
The in-memory buffer `self.local_logs` is the state; the entry type is
abstract since the method only appends and truncates.  The body is
wrapped in `try/except`, and `_save_logs` catches its own file errors,
so the method never raises to its caller: the model is the total state
transformer below (file persistence is I/O and outside the state the
claim constrains). -/

/-- Method `_add_log_entry`: append, then keep only the last 1000. -/
def add_log_entry {α : Type} (logs : List α) (e : α) : List α :=
  let logs2 := logs ++ [e]
  if 1000 < logs2.length then logs2.drop (logs2.length - 1000) else logs2

lemma add_log_entry_foldl {α : Type} (events : List α) :
    List.foldl add_log_entry [] events = events.drop (events.length - 1000) := by
  induction events using List.reverseRecOn with
  | nil => simp
  | append_singleton es e ih =>
    rw [List.foldl_append, List.foldl_cons, List.foldl_nil, ih]
    set d := es.length - 1000 with hd
    by_cases hlen : es.length < 1000
    · have hd0 : d = 0 := by omega
      have hsmall : ¬ 1000 < (es.drop d ++ [e]).length := by
        simp [List.length_drop]
        omega
      simp only [add_log_entry, if_neg hsmall]
      have : (es ++ [e]).length - 1000 = 0 := by
        simp [List.length_append]
        omega
      rw [this, List.drop_zero, hd0, List.drop_zero]
    · -- the buffer is full: one element is evicted
      have hdl : d ≤ es.length := by omega
      have hlarge : 1000 < (es.drop d ++ [e]).length := by
        simp [List.length_drop]
        omega
      simp only [add_log_entry, if_pos hlarge]
      have hlen2 : (es.drop d ++ [e]).length - 1000 = 1 := by
        simp [List.length_drop]
        omega
      rw [hlen2]
      have hstep : (es.drop d ++ [e]).drop 1 = es.drop (d + 1) ++ [e] := by
        rw [List.drop_append_of_le_length (by simp [List.length_drop]; omega)]
        rw [List.drop_drop]
      rw [hstep]
      have harr : (es ++ [e]).length - 1000 = d + 1 := by
        simp [List.length_append]
        omega
      rw [harr, List.drop_append_of_le_length (by omega)]

/-- C8: starting from an empty buffer, logging 1001 events leaves
exactly the last 1000 of them, in order — the oldest is evicted.  The
model `add_log_entry` is a total function, mirroring that the Python
method catches every exception and never raises to its caller. -/
theorem telemetry_buffer_bounded {α : Type} (events : List α)
    (h : events.length = 1001) :
    List.foldl add_log_entry [] events = events.drop 1 ∧
    (List.foldl add_log_entry [] events).length = 1000 := by
  have hf := add_log_entry_foldl events
  have h1 : events.length - 1000 = 1 := by omega
  rw [h1] at hf
  refine ⟨hf, ?_⟩
  rw [hf, List.length_drop, h]

/-- Witness for C8 on 1001 concrete events. -/
theorem telemetry_buffer_bounded_witness :
    List.foldl add_log_entry [] (List.replicate 1001 0) = (List.replicate 1001 0).drop 1 ∧
    (List.foldl add_log_entry [] (List.replicate 1001 0)).length = 1000 :=
  telemetry_buffer_bounded (List.replicate 1001 0) (by rw [List.length_replicate])

/-! Embedding of the vision-engine response parser of
`src/vision_engine.py`: a model of Python's `json.loads` restricted to
the constructs the profile shape uses (objects, arrays, strings with
escapes, the three literals and integer numbers; fraction/exponent
numbers and surrogate `\u` escapes are out of the modelled fragment),
then `_parse_response`, `_manual_quote_escape` and
`_create_fallback_profile` line by line.  The parser is fuelled with
structural recursion so that everything stays kernel-reducible; the
fuel given by `json_loads` always suffices, and the theorems below
never depend on the fuel bound (both sides of every comparison run the
same parser on the same string). -/

/-- A parsed JSON value. -/
inductive JValue where
  | jnull
  | jbool (b : Bool)
  | jnum (n : Int)
  | jstr (s : List Char)
  | jarr (xs : List JValue)
  | jobj (kvs : List (List Char × JValue))

/-- The whitespace skipped between JSON tokens (RFC 8259, as in
Python's json module). -/
def skipWsJ (l : List Char) : List Char :=
  l.dropWhile (fun c => c == ' ' || c == '\t' || c == '\n' || c == '\r')

/-- Value of a hex digit. -/
def hexVal (c : Char) : Option Nat :=
  if '0' ≤ c ∧ c ≤ '9' then some (c.toNat - 48)
  else if 'a' ≤ c ∧ c ≤ 'f' then some (c.toNat - 87)
  else if 'A' ≤ c ∧ c ≤ 'F' then some (c.toNat - 55)
  else none

/-- Decimal digit test. -/
def isDigitC (c : Char) : Bool := '0' ≤ c && c ≤ '9'

/-- Numeric value of a digit string. -/
def digitsVal (l : List Char) : Nat :=
  l.foldl (fun acc c => acc * 10 + (c.toNat - 48)) 0

/-- Parse the body of a JSON string after the opening quote, returning
the decoded content and the input after the closing quote.  Raw control
characters are rejected (Python's strict mode); the standard escapes
and non-surrogate `\u` escapes are decoded. -/
def parseStringBody : List Char → Option (List Char × List Char)
  | [] => none
  | c :: t =>
    if c == '"' then some ([], t)
    else if c == '\\' then
      match t with
      | [] => none
      | e :: t2 =>
        if e == '"' then (parseStringBody t2).map (fun r => ('"' :: r.1, r.2))
        else if e == '\\' then (parseStringBody t2).map (fun r => ('\\' :: r.1, r.2))
        else if e == '/' then (parseStringBody t2).map (fun r => ('/' :: r.1, r.2))
        else if e == 'b' then (parseStringBody t2).map (fun r => ('\x08' :: r.1, r.2))
        else if e == 'f' then (parseStringBody t2).map (fun r => ('\x0c' :: r.1, r.2))
        else if e == 'n' then (parseStringBody t2).map (fun r => ('\n' :: r.1, r.2))
        else if e == 'r' then (parseStringBody t2).map (fun r => ('\r' :: r.1, r.2))
        else if e == 't' then (parseStringBody t2).map (fun r => ('\t' :: r.1, r.2))
        else if e == 'u' then
          match t2 with
          | a :: b :: c2 :: d :: t3 =>
            match hexVal a, hexVal b, hexVal c2, hexVal d with
            | some va, some vb, some vc, some vd =>
              let n := ((va * 16 + vb) * 16 + vc) * 16 + vd
              if n < 55296 ∨ 57344 ≤ n then
                (parseStringBody t3).map (fun r => (Char.ofNat n :: r.1, r.2))
              else none
            | _, _, _, _ => none
          | _ => none
        else none
    else if c.toNat < 32 then none
    else (parseStringBody t).map (fun r => (c :: r.1, r.2))

/-- Parse a JSON number (integer fragment: optional minus and digits;
fraction and exponent forms are outside the modelled fragment). -/
def parseNum (c : Char) (t : List Char) : Option (JValue × List Char) :=
  let neg := c == '-'
  let body := if neg then t else c :: t
  let ds := body.takeWhile isDigitC
  let rest := body.dropWhile isDigitC
  if ds.isEmpty then none
  else
    match rest with
    | '.' :: _ => none
    | 'e' :: _ => none
    | 'E' :: _ => none
    | _ => some (JValue.jnum (if neg then -(digitsVal ds : Int) else (digitsVal ds : Int)), rest)

/-- The member loop of an object: `pv` parses one value (the main
parser at the enclosing fuel).  Expects a key string next. -/
def parseMembersH (pv : List Char → Option (JValue × List Char)) :
    Nat → List Char → List (List Char × JValue) → Option (JValue × List Char)
  | 0, _, _ => none
  | fuel + 1, l, acc =>
    match skipWsJ l with
    | '"' :: t =>
      match parseStringBody t with
      | none => none
      | some (k, r1) =>
        match skipWsJ r1 with
        | ':' :: r2 =>
          match pv r2 with
          | none => none
          | some (v, r3) =>
            match skipWsJ r3 with
            | ',' :: r4 => parseMembersH pv fuel r4 (acc ++ [(k, v)])
            | '\x7d' :: r4 => some (JValue.jobj (acc ++ [(k, v)]), r4)
            | _ => none
        | _ => none
    | _ => none

/-- The element loop of an array. -/
def parseElemsH (pv : List Char → Option (JValue × List Char)) :
    Nat → List Char → List JValue → Option (JValue × List Char)
  | 0, _, _ => none
  | fuel + 1, l, acc =>
    match pv l with
    | none => none
    | some (v, r1) =>
      match skipWsJ r1 with
      | ',' :: r2 => parseElemsH pv fuel r2 (acc ++ [v])
      | ']' :: r2 => some (JValue.jarr (acc ++ [v]), r2)
      | _ => none

/-- Parse one JSON value, fuelled. -/
def parseValue : Nat → List Char → Option (JValue × List Char)
  | 0, _ => none
  | fuel + 1, l =>
    match skipWsJ l with
    | [] => none
    | c :: t =>
      if c == '"' then (parseStringBody t).map (fun r => (JValue.jstr r.1, r.2))
      else if c == '\x7b' then
        match skipWsJ t with
        | '\x7d' :: t2 => some (JValue.jobj [], t2)
        | l2 => parseMembersH (fun l3 => parseValue fuel l3) fuel l2 []
      else if c == '[' then
        match skipWsJ t with
        | ']' :: t2 => some (JValue.jarr [], t2)
        | l2 => parseElemsH (fun l3 => parseValue fuel l3) fuel l2 []
      else if isPre ("true".data) (c :: t) then some (JValue.jbool true, (c :: t).drop 4)
      else if isPre ("false".data) (c :: t) then some (JValue.jbool false, (c :: t).drop 5)
      else if isPre ("null".data) (c :: t) then some (JValue.jnull, (c :: t).drop 4)
      else if c == '-' || isDigitC c then parseNum c t
      else none

/-- Model of Python `json.loads`: parse one value and require only
whitespace to remain.  The fuel exceeds any possible nesting depth and
member count of the input. -/
def json_loads (l : List Char) : Option JValue :=
  match parseValue (4 * l.length + 16) l with
  | some (v, rest) => if (skipWsJ rest).isEmpty then some v else none
  | none => none

/-- A string-typed JSON value. -/
def asStr : JValue → Option String
  | JValue.jstr s => some ⟨s⟩
  | _ => none

/-- Python dict lookup on parsed object members (later duplicate keys
win, as in `json.loads`). -/
def lookupLast (kvs : List (List Char × JValue)) (k : List Char) : Option JValue :=
  (kvs.reverse.find? (fun kv => kv.1 == k)).map (fun kv => kv.2)

/-- A pydantic string field: missing means the default `""`, present
values must be strings (the profile shape). -/
def fieldStr (kvs : List (List Char × JValue)) (k : String) : Option String :=
  match lookupLast kvs k.data with
  | none => some ""
  | some v => asStr v

/-- Construction of an `ExperienceItem` from a parsed JSON object
(pydantic validation of the profile shape). -/
def expOfJson : JValue → Option ExperienceItem
  | JValue.jobj kvs => do
    let t ← fieldStr kvs "title"
    let c ← fieldStr kvs "company"
    let d ← fieldStr kvs "dates"
    let de ← fieldStr kvs "description"
    some ⟨t, c, d, de⟩
  | _ => none

/-- Construction `LinkedInProfile(**data)` from a parsed JSON object. -/
def profileOfJson : JValue → Option LinkedInProfile
  | JValue.jobj kvs => do
    let h ← fieldStr kvs "headline"
    let a ← fieldStr kvs "about"
    let e ← (match lookupLast kvs ("experience".data) with
      | none => some []
      | some (JValue.jarr xs) => xs.mapM expOfJson
      | some _ => none)
    let sk ← (match lookupLast kvs ("skills".data) with
      | none => some []
      | some (JValue.jarr xs) => xs.mapM asStr
      | some _ => none)
    some ⟨h, a, e, sk⟩
  | _ => none

/-- Direct parse of a response: `json.loads` followed by
`LinkedInProfile(**data)`. -/
def direct_parse (s : String) : Option LinkedInProfile :=
  (json_loads s.data).bind profileOfJson

/-- The brace-matching loop of `_parse_response`: running count of
braces (including those inside string literals — the source scans raw
characters), returning `i + 1` for the first position where the count
returns to zero after a closing brace, `none` for Python's `-1`. -/
def braceEndAux : List Char → Nat → Int → Option Nat
  | [], _, _ => none
  | c :: t, i, depth =>
    if c == '\x7b' then braceEndAux t (i + 1) (depth + 1)
    else if c == '\x7d' then
      if depth - 1 = 0 then some (i + 1) else braceEndAux t (i + 1) (depth - 1)
    else braceEndAux t (i + 1) depth

/-- The `json_end` computation of `_parse_response`. -/
def braceEnd (l : List Char) : Option Nat := braceEndAux l 0 0

/-- The character walk of `_manual_quote_escape`, carrying the
`escape_next` and `in_quotes` flags. -/
def mqeAux : List Char → Bool → Bool → List Char
  | [], _, _ => []
  | c :: t, escape_next, in_quotes =>
    if escape_next then c :: mqeAux t false in_quotes
    else if c == '\\' then c :: mqeAux t true in_quotes
    else if c == '"' && !in_quotes then c :: mqeAux t false true
    else if c == '"' && in_quotes then
      let next_chars := stripBoth (t.take 2)
      if isPre [','] next_chars || isPre ['\x7d'] next_chars || isPre [']'] next_chars
          || t.isEmpty then
        c :: mqeAux t false false
      else
        '\\' :: '"' :: mqeAux t false true
    else c :: mqeAux t false in_quotes

/-- Method `_manual_quote_escape` of `src/vision_engine.py`. -/
def manual_quote_escape (l : List Char) : List Char := mqeAux l false false

/-- The nested `find`-based extraction of one quoted field value used
by `_create_fallback_profile` (empty when any step fails). -/
def salvageField (l : List Char) (key : List Char) : List Char :=
  match listFind key l with
  | none => []
  | some ks =>
    match findFrom l [':'] ks with
    | none => []
    | some vs =>
      match findFrom l ['"'] vs with
      | none => []
      | some qs =>
        match findFrom l ['"'] (qs + 1) with
        | none => []
        | some qe => (l.drop (qs + 1)).take (qe - (qs + 1))

/-- Method `_create_fallback_profile` of `src/vision_engine.py`. -/
def create_fallback_profile (response_text : String) : LinkedInProfile :=
  ⟨⟨salvageField response_text.data ("\"headline\"".data)⟩,
   ⟨salvageField response_text.data ("\"about\"".data)⟩, [], []⟩

/-! Method `_parse_response` of `src/vision_engine.py`, staged into its
four cleaning phases in source order: strip and locate the JSON start,
strip markdown fences, truncate at the brace-matched end, check the
bracket shape, remove `,\x7d` / `,]`, escape raw newlines, then
attempt `json.loads`; on failure retry after `_manual_quote_escape`,
and on a second failure fall back to `_create_fallback_profile` of the
cleaned text.  `Except.error` stands for the `ValueError`s the method
raises. -/
/-- The opening step of `_parse_response`: after stripping, keep the
text from the first open brace, `none` for the raised `ValueError`. -/
def locate_json (t0 : List Char) : Option (List Char) :=
  if isPre ['\x7b'] t0 then some t0
  else match listFind ['\x7b'] t0 with
    | some i => some (t0.drop i)
    | none => none

/-- The markdown-fence stripping of `_parse_response` (three `if`s in
source order) followed by the second `strip()`. -/
def strip_fences (t1 : List Char) : List Char :=
  let t2a := if isPre ("```json".data) t1 then t1.drop 7 else t1
  let t2b := if isPre ("```".data) t2a then t2a.drop 3 else t2a
  let t2c := if isSuf ("```".data) t2b then t2b.take (t2b.length - 3) else t2b
  stripBoth t2c

/-- The `json_end` truncation of `_parse_response`. -/
def truncate_braces (t2 : List Char) : List Char :=
  match braceEnd t2 with
  | some e => t2.take e
  | none => t2

/-- The trailing-comma removal and raw-newline escaping of
`_parse_response`, in source order. -/
def clean_commas_newlines (t3 : List Char) : List Char :=
  replaceAll ['\r'] ['\\', 'r']
    (replaceAll ['\n'] ['\\', 'n']
      (replaceAll (",]".data) ("]".data)
        (replaceAll (",\x7d".data) ("\x7d".data) t3)))

def parse_response (response_text : String) : Except String LinkedInProfile :=
  match locate_json (stripBoth response_text.data) with
  | none => Except.error "No JSON found in response"
  | some t1 =>
    let t3 := truncate_braces (strip_fences t1)
    if !(isPre ['\x7b'] t3 && isSuf ['\x7d'] t3) then
      Except.error "Response does not appear to be valid JSON"
    else
      let t5 := clean_commas_newlines t3
      match json_loads t5 with
      | some d =>
        match profileOfJson d with
        | some p => Except.ok p
        | none => Except.error "Failed to parse JSON response"
      | none =>
        let t6 := manual_quote_escape t5
        match json_loads t6 with
        | some d2 =>
          match profileOfJson d2 with
          | some p => Except.ok p
          | none => Except.error "Failed to parse JSON response"
        | none => Except.ok (create_fallback_profile ⟨t5⟩)

lemma listFind_none_cons {pat : List Char} {c : Char} {t : List Char}
    (h : listFind pat (c :: t) = none) :
    isPre pat (c :: t) = false ∧ listFind pat t = none := by
  have hp : isPre pat (c :: t) = false := by
    cases hb : isPre pat (c :: t)
    · rfl
    · simp [listFind, hb] at h
  refine ⟨hp, ?_⟩
  cases hf : listFind pat t with
  | none => rfl
  | some v => simp [listFind, hp, hf] at h

lemma replaceAllF_of_not_found (pat rep : List Char) :
    ∀ (fuel : Nat) (l : List Char), listFind pat l = none → replaceAllF pat rep fuel l = l := by
  intro fuel
  induction fuel with
  | zero =>
    intro l _
    rfl
  | succ n ih =>
    intro l h
    cases l with
    | nil => rfl
    | cons c t =>
      obtain ⟨hp, ht⟩ := listFind_none_cons h
      have hcond : ¬ (pat.length ≠ 0 ∧ isPre pat (c :: t) = true) := by
        rintro ⟨-, hpt⟩
        rw [hp] at hpt
        exact Bool.false_ne_true hpt
      simp only [replaceAllF, if_neg hcond]
      rw [ih t ht]

lemma replaceAll_of_not_found (pat rep l : List Char) (h : listFind pat l = none) :
    replaceAll pat rep l = l :=
  replaceAllF_of_not_found pat rep l.length l h

lemma exists_cons_of_isPre_single {c : Char} {l : List Char} (h : isPre [c] l = true) :
    ∃ t, l = c :: t := by
  cases l with
  | nil => simp [isPre] at h
  | cons d t =>
    simp [isPre] at h
    exact ⟨t, by rw [h]⟩

lemma isPre_cons_ne {c d : Char} {p t : List Char} (h : ¬ c = d) :
    isPre (c :: p) (d :: t) = false := by
  simp [isPre, h]

lemma fences_false {l : List Char} (hstart : isPre ['\x7b'] l = true)
    (hend : isSuf ['\x7d'] l = true) :
    isPre (("```json" : String).data) l = false ∧
    isPre (("```" : String).data) l = false ∧
    isSuf (("```" : String).data) l = false := by
  obtain ⟨t, ht⟩ := exists_cons_of_isPre_single hstart
  obtain ⟨t2, ht2⟩ :=
    exists_cons_of_isPre_single (show isPre ['\x7d'] l.reverse = true from hend)
  refine ⟨?_, ?_, ?_⟩
  · rw [ht, show (("```json" : String).data) = '\x60' :: ("``json" : String).data from rfl]
    exact isPre_cons_ne (by decide)
  · rw [ht, show (("```" : String).data) = '\x60' :: ("``" : String).data from rfl]
    exact isPre_cons_ne (by decide)
  · show isPre (("```" : String).data).reverse l.reverse = false
    rw [ht2, show (("```" : String).data).reverse = '\x60' :: ("``" : String).data from rfl]
    exact isPre_cons_ne (by decide)

/-- C4: the fallback profile never invents content — `experience` and
`skills` are always the empty list, and when the `"headline"` /
`"about"` key substrings are absent from the raw text the respective
salvaged field is the empty string. -/
theorem fallback_profile_shape (s : String) :
    (create_fallback_profile s).experience = [] ∧
    (create_fallback_profile s).skills = [] ∧
    (listFind (("\"headline\"" : String).data) s.data = none →
      (create_fallback_profile s).headline = "") ∧
    (listFind (("\"about\"" : String).data) s.data = none →
      (create_fallback_profile s).about = "") := by
  refine ⟨rfl, rfl, ?_, ?_⟩
  · intro h
    simp only [create_fallback_profile, salvageField, h]
  · intro h
    simp only [create_fallback_profile, salvageField, h]

/-- Witness for C4 at a raw response with no recoverable fields. -/
theorem fallback_profile_shape_witness :
    (create_fallback_profile "plain refusal text with no fields").experience = [] ∧
    (create_fallback_profile "plain refusal text with no fields").skills = [] ∧
    (create_fallback_profile "plain refusal text with no fields").headline = "" ∧
    (create_fallback_profile "plain refusal text with no fields").about = "" :=
  ⟨(fallback_profile_shape _).1, (fallback_profile_shape _).2.1,
   (fallback_profile_shape _).2.2.1 (by decide), (fallback_profile_shape _).2.2.2 (by decide)⟩

/-- A valid profile-shape JSON response whose `headline` value contains
a close brace, used to refute C3. -/
def c3bad : String :=
  "\x7b\"headline\": \"a\x7db\", \"about\": \"\", \"experience\": [], \"skills\": []\x7d"

set_option maxRecDepth 8000 in
/-- Counterexample to C3 as stated: `c3bad` is a valid JSON object of
the profile shape (the direct parse succeeds), yet `_parse_response`
returns a different profile — the brace-matching step counts the brace
inside the string value, truncates the JSON mid-string, every repair
fails, and the fallback salvages an empty headline. -/
theorem parse_response_not_idempotent :
    direct_parse c3bad = some ⟨"a\x7db", "", [], []⟩ ∧
    parse_response c3bad = Except.ok ⟨"", "", [], []⟩ ∧
    (⟨"a\x7db", "", [], []⟩ : LinkedInProfile) ≠ ⟨"", "", [], []⟩ := by
  refine ⟨by decide, rfl, by decide⟩

/-- C3 amended: the repair pipeline is the identity — and hence
`_parse_response` agrees with the direct parse — on valid profile-shape
JSON responses that are stripped, start with an open brace and end with
a close brace, whose raw brace scan either ends exactly at the end of
the string or never balances (no stray close brace inside string
values), and that contain no `,\x7d` or `,]` substring and no literal
newline or carriage-return characters. -/
theorem parse_response_idempotent (s : String) (p : LinkedInProfile)
    (hstrip : stripBoth s.data = s.data)
    (hstart : isPre ['\x7b'] s.data = true)
    (hend : isSuf ['\x7d'] s.data = true)
    (hbrace : braceEnd s.data = some s.data.length ∨ braceEnd s.data = none)
    (hc1 : listFind ((",\x7d" : String).data) s.data = none)
    (hc2 : listFind ((",]" : String).data) s.data = none)
    (hn : listFind ['\n'] s.data = none)
    (hr : listFind ['\r'] s.data = none)
    (hparse : direct_parse s = some p) :
    parse_response s = Except.ok p := by
  obtain ⟨f1, f2, f3⟩ := fences_false hstart hend
  have hloc : locate_json s.data = some s.data := by
    simp [locate_json, hstart]
  have hfen : strip_fences s.data = s.data := by
    simp only [strip_fences, f1, f2, f3, Bool.false_eq_true, if_false, hstrip]
  have htru : truncate_braces s.data = s.data := by
    rcases hbrace with hb | hb
    · simp [truncate_braces, hb]
    · simp [truncate_braces, hb]
  have hcln : clean_commas_newlines s.data = s.data := by
    rw [clean_commas_newlines, replaceAll_of_not_found _ _ _ hc1,
      replaceAll_of_not_found _ _ _ hc2, replaceAll_of_not_found _ _ _ hn,
      replaceAll_of_not_found _ _ _ hr]
  obtain ⟨d, hj, hpd⟩ : ∃ d, json_loads s.data = some d ∧ profileOfJson d = some p := by
    unfold direct_parse at hparse
    cases hjl : json_loads s.data with
    | none =>
      rw [hjl] at hparse
      simp at hparse
    | some d =>
      rw [hjl] at hparse
      simp only [Option.some_bind] at hparse
      exact ⟨d, rfl, hparse⟩
  have hval : (!(isPre ['\x7b'] s.data && isSuf ['\x7d'] s.data)) = false := by
    rw [hstart, hend]
    rfl
  unfold parse_response
  rw [hstrip, hloc]
  dsimp only []
  rw [hfen, htru, hcln, hval, hj]
  simp only [Bool.false_eq_true, if_false, hpd]

/-- A clean single-line valid profile-shape JSON response for the C3
amended witness. -/
def c3good : String :=
  "\x7b\"headline\": \"h\", \"about\": \"a\", \"experience\": [\x7b\"title\": \"t\", \"company\": \"c\", \"dates\": \"d\", \"description\": \"x\"\x7d], \"skills\": [\"s1\", \"s2\"]\x7d"

set_option maxRecDepth 8000 in
/-- Witness for the amended C3: on `c3good` the pipeline returns
exactly the directly parsed profile. -/
theorem parse_response_idempotent_witness :
    parse_response c3good = Except.ok ⟨"h", "a", [⟨"t", "c", "d", "x"⟩], ["s1", "s2"]⟩ :=
  parse_response_idempotent c3good _ (by decide) (by decide) (by decide)
    (Or.inl (by decide)) (by decide) (by decide) (by decide) (by decide) (by decide)

end LinkedInOpt
